import Mathlib

/-!
Verification of the freeze/unfreeze control-plane logic of the `server`
package (`adminServer.ClusterFreeze` and `adminServer.waitForStoreFrozen`).

The Go code is shallowly embedded:
* Go maps (`map[roachpb.StoreID]roachpb.NodeID`, `mu.oks`) become association
  lists over `Nat` keys with overwrite/erase/lookup helpers.
* The remote calls (`db.Run` of a `ChangeFrozen` batch, `gossip.GetInfoProto`,
  `rpcContext.GRPCDial`, `client.PollFrozen`) and the task runner become an
  explicit environment of oracles, so one invocation of the code is a pure
  function of the environment.
* The retry loop (`for r := retry.Start(opts); r.Next(); {...}`) becomes a
  fuel-indexed recursion: the fuel counts how many times `r.Next()` yields
  `true` before the budget (or the closer) stops it.
* The asynchronous poll actions of `waitForStoreFrozen` are modelled twice:
  a sequential functional model in which a dispatched action completes
  immediately (used for the end-to-end behaviour of the loop), and a
  small-step labelled transition system in which dispatch and completion
  interleave freely (used for the concurrency discipline of the `oks` map).
-/

namespace Freeze

/-- Lookup in an association list keyed by `Nat` (a Go map read `m[k]`,
with the `, ok` flavour: `none` means the key is absent). -/
def alGet {β : Type} : List (Nat × β) → Nat → Option β
  | [], _ => none
  | (k, v) :: t, s => if s = k then some v else alGet t s

/-- Overwriting insert (a Go map write `m[k] = v`). -/
def alSet {β : Type} : List (Nat × β) → Nat → β → List (Nat × β)
  | [], s, v => [(s, v)]
  | (k, w) :: t, s, v => if k = s then (k, v) :: t else (k, w) :: alSet t s v

/-- Deletion (Go `delete(m, k)`). -/
def alErase {β : Type} (l : List (Nat × β)) (s : Nat) : List (Nat × β) :=
  l.filter fun p => p.1 != s

/-- The keys that `ClusterFreeze` mentions.  The Go code treats keys as plain
byte strings here (it only passes them between requests and responses), so the
embedding uses an abstract token type carrying the four named constants
(`keys.LocalMax`, `keys.Meta1KeyMax`, `keys.Meta2KeyMax`, `roachpb.KeyMax`)
plus arbitrary further keys for the `MinStartKey` values of responses. -/
inductive FKey where
  | localMax
  | meta1KeyMax
  | meta2KeyMax
  | keyMax
  | mk (n : Nat)
deriving DecidableEq, Repr

/-- Errors observable in this code.  The remote/oracle failures carry a `Nat`
tag so that distinct concrete errors can be told apart; `nodeShuttingDown` is
`errors.New("node is shutting down")` and `timedOut n` is the
`fmt.Errorf("timed out waiting for %d store[s] to report freeze", n)` error. -/
inductive AdminError where
  | gossipErr (n : Nat)
  | dialErr (n : Nat)
  | pollErr (n : Nat)
  | dbErr (n : Nat)
  | nodeShuttingDown
  | timedOut (n : Nat)
deriving DecidableEq, Repr

/-- `roachpb.ChangeFrozenResponse`: the fields read by `ClusterFreeze`. -/
structure ChangeFrozenResponse where
  rangesAffected : Int
  minStartKey : FKey
  stores : List (Nat × Nat)
deriving DecidableEq, Repr

/-- `for storeID, nodeID := range fr.Stores { stores[storeID] = nodeID }`:
merge one response's store set into the accumulator, later values
overwriting. -/
def mergeStores (acc new : List (Nat × Nat)) : List (Nat × Nat) :=
  new.foldl (fun a p => alSet a p.1 p.2) acc

/-- The `freezeFroms` slice of `ClusterFreeze`: userspace from
`keys.Meta2KeyMax`, all meta2 ranges from `keys.Meta1KeyMax`, and the first
(meta1) range from `keys.LocalMax`, in that order. -/
def freezeFroms : List FKey := [FKey.meta2KeyMax, FKey.meta1KeyMax, FKey.localMax]

/-- One request issued by `ClusterFreeze`: `(from, to, req.Freeze)`. -/
abbrev FreezeReq := FKey × FKey × Bool

/-- The `for _, freezeFrom := range freezeFroms` loop of `ClusterFreeze`,
with `process` inlined: each step issues one `ChangeFrozen` request against
the environment `env` (the `db.Run` oracle), accumulates `RangesAffected`
and the store set, and chains `freezeTo` through the returned `MinStartKey`.
The issued requests are recorded in `trace` (a failed request is still
recorded: it was issued). -/
def runFreezeSteps (env : FKey → FKey → Bool → Except AdminError ChangeFrozenResponse)
    (freeze : Bool) :
    List FKey → FKey → Int → List (Nat × Nat) → List FreezeReq →
      Except AdminError (Int × List (Nat × Nat)) × List FreezeReq
  | [], _, ra, acc, tr => (Except.ok (ra, acc), tr)
  | freezeFrom :: rest, freezeTo, ra, acc, tr =>
    let tr := tr ++ [(freezeFrom, freezeTo, freeze)]
    match env freezeFrom freezeTo freeze with
    | Except.error e => (Except.error e, tr)
    | Except.ok fr =>
        runFreezeSteps env freeze rest fr.minStartKey (ra + fr.rangesAffected)
          (mergeStores acc fr.stores) tr

/-- `adminServer.ClusterFreeze`, up to the final `waitForStoreFrozen` call:
returns the accumulated `(RangesAffected, stores)` (or the first error) and
the list of `ChangeFrozen` requests issued, in order.  When freezing it walks
`freezeFroms` starting with `freezeTo = roachpb.KeyMax`; when unfreezing it
issues the single request `[keys.LocalMax, roachpb.KeyMax)`. -/
def ClusterFreeze (env : FKey → FKey → Bool → Except AdminError ChangeFrozenResponse)
    (freeze : Bool) :
    Except AdminError (Int × List (Nat × Nat)) × List FreezeReq :=
  if freeze then
    runFreezeSteps env true freezeFroms FKey.keyMax 0 [] []
  else
    match env FKey.localMax FKey.keyMax false with
    | Except.error e => (Except.error e, [(FKey.localMax, FKey.keyMax, false)])
    | Except.ok fr =>
        (Except.ok (0 + fr.rangesAffected, mergeStores [] fr.stores),
          [(FKey.localMax, FKey.keyMax, false)])

/-- `roachpb.PollFrozenResponse`: the two replica counts read by the poll
action (`NumThawed` = replicas not yet frozen, `NumFrozen` = replicas still
frozen). -/
structure PollFrozenResponse where
  numThawed : Nat
  numFrozen : Nat
deriving DecidableEq, Repr

/-- The convergence test of the poll action:
`ok := (wantFrozen && resp.NumThawed == 0) || (!wantFrozen && resp.NumFrozen == 0)`. -/
def converged (wantFrozen : Bool) (resp : PollFrozenResponse) : Bool :=
  (wantFrozen && resp.numThawed == 0) || (!wantFrozen && resp.numFrozen == 0)

/-- The `oks` update performed by the poll action's deferred function on a
successful response: mark the store `true` (confirmed) if it is in the right
state, otherwise forget it so the retry loop picks it up again. -/
def applyPollResult (wantFrozen : Bool) (oks : List (Nat × Bool)) (storeID : Nat)
    (resp : PollFrozenResponse) : List (Nat × Bool) :=
  if converged wantFrozen resp then alSet oks storeID true else alErase oks storeID

/-- Modelled from the spec: the outcome of `Stopper.RunLimitedAsyncTask`
(`util/stop`, not part of the provided sources).  Per §4.3 the runner's
`TrySubmit` "returns false (without running the action) if the concurrency
ceiling is currently saturated or the runner has been told to stop accepting
work; otherwise it schedules the action ... and returns true immediately".
The caller only observes the boolean, but the model distinguishes the two
refusal causes so that claims about them can be stated. -/
inductive SubmitOutcome where
  | accepted
  | refusedSaturated
  | refusedShutdown
deriving DecidableEq, Repr

/-- The environment of one `waitForStoreFrozen` invocation: `gossip` is
`gossip.GetInfoProto` yielding the node's address, `dial` is
`rpcContext.GRPCDial`, `poll s k` is the `PollFrozen` call for store `s`
— indexed by `k`, how many polls of `s` were dispatched before, so that a
store may answer differently on successive attempts — and `submit` is the
(spec-modelled) task-runner decision for the `n`-th submission attempt. -/
structure FreezeEnv where
  gossip : Nat → Except AdminError Nat
  dial : Nat → Except AdminError Unit
  poll : Nat → Nat → Except AdminError PollFrozenResponse
  submit : Nat → SubmitOutcome

/-- Observable events of one invocation, recorded for specification purposes:
`resolved s n prior` — the gossip address lookup for store `s` on node `n` was
performed, with `prior` the store's entry in `oks` at that moment;
`polled s k` — the `k`-th poll action for store `s` was dispatched;
`sent e` — `sendErr(e)` was called (whether or not the error was kept). -/
inductive WEvent where
  | resolved (storeID nodeID : Nat) (prior : Option Bool)
  | polled (storeID k : Nat)
  | sent (e : AdminError)
deriving DecidableEq, Repr

/-- The mutable state of one `waitForStoreFrozen` invocation: the `mu.oks`
map (`false` = in flight, `true` = confirmed frozen/thawed, absent = not yet
attempted), the one-slot `errChan`, the per-store dispatch counts, the number
of submission attempts so far, and the event trace. -/
structure WaitState where
  oks : List (Nat × Bool)
  errSlot : Option AdminError
  attempts : List (Nat × Nat)
  submits : Nat
  trace : List WEvent
deriving DecidableEq, Repr

def initWaitState : WaitState := ⟨[], none, [], 0, []⟩

/-- `sendErr`: a non-blocking send on the one-element `errChan` — the first
error is kept, later ones are dropped.  Every call is recorded in the trace. -/
def sendErr (st : WaitState) (e : AdminError) : WaitState :=
  { st with
    errSlot := match st.errSlot with
      | some e0 => some e0
      | none => some e,
    trace := st.trace ++ [WEvent.sent e] }

/-- The body of the poll `action` closure: dial the resolved address, issue
`PollFrozen`, and on success apply the deferred `oks` update.  On any error
the deferred function returns early, so `oks` is left untouched (the
in-flight mark persists); the error is handed back to the wrapper, which
feeds it to `sendErr`. -/
def runAction (env : FreezeEnv) (wantFrozen : Bool) (storeID addr k : Nat)
    (oks : List (Nat × Bool)) : List (Nat × Bool) × Option AdminError :=
  match env.dial addr with
  | Except.error e => (oks, some e)
  | Except.ok _ =>
    match env.poll storeID k with
    | Except.error e => (oks, some e)
    | Except.ok resp => (applyPollResult wantFrozen oks storeID resp, none)

/-- One pass of the inner `for storeID, nodeID := range stores` loop.  For
each pair: resolve the node address (a failure is sent and breaks the pass),
skip the store if it is already in `oks` (in flight or confirmed), otherwise
mark it in flight and submit the poll action; a refused submission sends
"node is shutting down" and breaks the pass.  In this sequential model an
accepted action runs to completion at the point of submission.  (Go iterates
the `stores` map in unspecified order; the model takes the pairs as a list,
fixing one order.) -/
def iterStores (env : FreezeEnv) (wantFrozen : Bool) :
    List (Nat × Nat) → WaitState → WaitState
  | [], st => st
  | (storeID, nodeID) :: rest, st =>
    let st1 : WaitState :=
      { st with trace := st.trace ++ [WEvent.resolved storeID nodeID (alGet st.oks storeID)] }
    match env.gossip nodeID with
    | Except.error e => sendErr st1 e
    | Except.ok addr =>
      match alGet st1.oks storeID with
      | some _ => iterStores env wantFrozen rest st1
      | none =>
        let st2 : WaitState := { st1 with oks := alSet st1.oks storeID false }
        match env.submit st2.submits with
        | SubmitOutcome.refusedSaturated =>
            sendErr { st2 with submits := st2.submits + 1 } AdminError.nodeShuttingDown
        | SubmitOutcome.refusedShutdown =>
            sendErr { st2 with submits := st2.submits + 1 } AdminError.nodeShuttingDown
        | SubmitOutcome.accepted =>
          let k := (alGet st2.attempts storeID).getD 0
          let st3 : WaitState :=
            { st2 with
              submits := st2.submits + 1,
              attempts := alSet st2.attempts storeID (k + 1),
              trace := st2.trace ++ [WEvent.polled storeID k] }
          match runAction env wantFrozen storeID addr k st3.oks with
          | (oks', none) => iterStores env wantFrozen rest { st3 with oks := oks' }
          | (oks', some e) => iterStores env wantFrozen rest (sendErr { st3 with oks := oks' } e)

/-- `numWaiting` bookkeeping: the number of `true` entries of `oks`. -/
def countTrue (l : List (Nat × Bool)) : Nat := (l.filter fun p => p.2).length

/-- The epilogue of `waitForStoreFrozen`: return the recorded error if any;
otherwise fail with the timeout error when stores are still waiting. -/
def finish (numWaiting : Nat) (err : Option AdminError) : Option AdminError :=
  match err with
  | some e => some e
  | none =>
    match numWaiting with
    | 0 => none
    | Nat.succ m => some (AdminError.timedOut (Nat.succ m))

/-- The retry loop `for r := retry.Start(opts); r.Next(); { ... }`.  `fuel`
is the number of remaining iterations the retry scheduler will grant;
`numWaiting` carries the count computed by the previous iteration (initially
`len(stores)`), which is what the epilogue sees if the budget runs out.
Each iteration runs the inner pass, recomputes `numWaiting`, drains the error
slot, and stops on an error or full convergence. -/
def waitLoop (env : FreezeEnv) (wantFrozen : Bool) (stores : List (Nat × Nat)) :
    Nat → WaitState → Nat → Option AdminError × WaitState
  | 0, st, numWaiting => (finish numWaiting none, st)
  | Nat.succ fuel, st, _ =>
    let st' := iterStores env wantFrozen stores st
    let numWaiting := stores.length - countTrue st'.oks
    match st'.errSlot with
    | some e => (some e, { st' with errSlot := none })
    | none =>
      match numWaiting with
      | 0 => (none, st')
      | Nat.succ m => waitLoop env wantFrozen stores fuel st' (Nat.succ m)

/-- `opts.MaxRetries = 20`. -/
def maxRetries : Nat := 20

/-- `adminServer.waitForStoreFrozen stores wantFrozen`, as a function of the
oracle environment and the retry fuel.  Returns the error (or `none` for
success) together with the final state, whose trace records what happened. -/
def waitForStoreFrozen (env : FreezeEnv) (stores : List (Nat × Nat))
    (wantFrozen : Bool) (fuel : Nat) : Option AdminError × WaitState :=
  waitLoop env wantFrozen stores fuel initWaitState stores.length

/-- The errors passed to `sendErr` during a run, in order. -/
def sentList (tr : List WEvent) : List AdminError :=
  tr.filterMap fun ev =>
    match ev with
    | WEvent.sent e => some e
    | _ => none

/-- The stores whose node address was resolved, in order of resolution. -/
def resolvedStores (tr : List WEvent) : List Nat :=
  tr.filterMap fun ev =>
    match ev with
    | WEvent.resolved s _ _ => some s
    | _ => none

/-! ### Small-step model of the poll bookkeeping

The poll actions of `waitForStoreFrozen` run asynchronously: the dispatch in
the retry loop and the completion in the action's deferred function interleave
arbitrarily, serialized only by `mu`.  The sequential model above cannot
express that, so the discipline of the `mu.oks` map is modelled once more as a
labelled transition system whose three actions are exactly the three critical
sections of the Go code:

* `dispatch s` — lines `if _, inflightOrSucceeded := mu.oks[storeID]; ...`
  and `mu.oks[storeID] = false`: only possible while `s` has no entry;
* `finishOk s conv` — the deferred function on a successful response:
  sets the entry to `true` or deletes it;
* `finishErr s` — the action failed: the deferred function returns early,
  leaving `oks` untouched, and the action is no longer outstanding.
-/

/-- The shared state relevant to the poll discipline: the `mu.oks` map and the
set (list) of stores with a dispatched, not yet completed, poll action. -/
structure PollerState where
  oks : List (Nat × Bool)
  pending : List Nat
deriving DecidableEq, Repr

/-- Labels of the transition system. -/
inductive PAct where
  | dispatch (storeID : Nat)
  | finishOk (storeID : Nat) (conv : Bool)
  | finishErr (storeID : Nat)
deriving DecidableEq, Repr

/-- One atomic step of the poll bookkeeping (one critical section of `mu`). -/
inductive PStep : PollerState → PAct → PollerState → Prop where
  | dispatch (st : PollerState) (s : Nat) (h : alGet st.oks s = none) :
      PStep st (PAct.dispatch s) ⟨alSet st.oks s false, s :: st.pending⟩
  | finishOk (st : PollerState) (s : Nat) (conv : Bool) (h : s ∈ st.pending) :
      PStep st (PAct.finishOk s conv)
        ⟨if conv then alSet st.oks s true else alErase st.oks s, st.pending.erase s⟩
  | finishErr (st : PollerState) (s : Nat) (h : s ∈ st.pending) :
      PStep st (PAct.finishErr s) ⟨st.oks, st.pending.erase s⟩

/-- States reachable from the initial empty state of one invocation. -/
inductive PReach : PollerState → Prop where
  | init : PReach ⟨[], []⟩
  | step {st a st'} : PReach st → PStep st a st' → PReach st'

/-! ### Concrete test environments -/

/-- A `ChangeFrozen` oracle that always succeeds, affecting one range and
reporting `MinStartKey` equal to the requested start key. -/
def envCF : FKey → FKey → Bool → Except AdminError ChangeFrozenResponse :=
  fun f _ _ => Except.ok { rangesAffected := 1, minStartKey := f, stores := [] }

/-- A `ChangeFrozen` oracle with a nontrivial store set: the first step
reports stores 1 and 2 on node 100, the second reports store 2 moved to node
200, the third reports store 3 on node 300. -/
def envC9 : FKey → FKey → Bool → Except AdminError ChangeFrozenResponse :=
  fun f _ _ =>
    match f with
    | FKey.meta2KeyMax =>
        Except.ok { rangesAffected := 2, minStartKey := FKey.meta2KeyMax,
                    stores := [(1, 100), (2, 100)] }
    | FKey.meta1KeyMax =>
        Except.ok { rangesAffected := 3, minStartKey := FKey.meta1KeyMax,
                    stores := [(2, 200)] }
    | _ =>
        Except.ok { rangesAffected := 5, minStartKey := FKey.localMax,
                    stores := [(3, 300)] }

/-- A `ChangeFrozen` oracle whose second freeze step fails. -/
def envC9bad : FKey → FKey → Bool → Except AdminError ChangeFrozenResponse :=
  fun f _ _ =>
    match f with
    | FKey.meta2KeyMax =>
        Except.ok { rangesAffected := 2, minStartKey := FKey.meta2KeyMax, stores := [] }
    | _ => Except.error (AdminError.dbErr 7)

/-- Poll environment whose task runner refuses the first submission because
the concurrency ceiling is saturated; everything else succeeds. -/
def env4 : FreezeEnv where
  gossip := fun _ => Except.ok 0
  dial := fun _ => Except.ok ()
  poll := fun _ _ => Except.ok { numThawed := 0, numFrozen := 0 }
  submit := fun _ => SubmitOutcome.refusedSaturated

/-- Poll environment whose `PollFrozen` call always fails. -/
def env5 : FreezeEnv where
  gossip := fun _ => Except.ok 0
  dial := fun _ => Except.ok ()
  poll := fun _ _ => Except.error (AdminError.pollErr 7)
  submit := fun _ => SubmitOutcome.accepted

/-- Poll environment where the polls of stores 1 and 2 fail with distinct
errors. -/
def env6 : FreezeEnv where
  gossip := fun _ => Except.ok 0
  dial := fun _ => Except.ok ()
  poll := fun s _ =>
    Except.error (if s = 1 then AdminError.pollErr 1 else AdminError.pollErr 2)
  submit := fun _ => SubmitOutcome.accepted

/-- Poll environment where store 1 reports frozen immediately and store 2
only on its second poll. -/
def env7 : FreezeEnv where
  gossip := fun _ => Except.ok 0
  dial := fun _ => Except.ok ()
  poll := fun s k =>
    if s = 2 && k == 0 then Except.ok { numThawed := 1, numFrozen := 0 }
    else Except.ok { numThawed := 0, numFrozen := 0 }
  submit := fun _ => SubmitOutcome.accepted

/-- Poll environment where no store ever reports frozen. -/
def envT : FreezeEnv where
  gossip := fun _ => Except.ok 0
  dial := fun _ => Except.ok ()
  poll := fun _ _ => Except.ok { numThawed := 1, numFrozen := 1 }
  submit := fun _ => SubmitOutcome.accepted

/-- Poll environment whose gossip lookup fails for node 20 but succeeds for
node 10; polls converge immediately. -/
def envG : FreezeEnv where
  gossip := fun n =>
    if n = 20 then Except.error (AdminError.gossipErr 20) else Except.ok 0
  dial := fun _ => Except.ok ()
  poll := fun _ _ => Except.ok { numThawed := 0, numFrozen := 0 }
  submit := fun _ => SubmitOutcome.accepted

/-- Left-biased choice on options (the semantics of "later map writes win",
read from the right). -/
def firstSome {α : Type} (a b : Option α) : Option α :=
  match a with
  | some x => some x
  | none => b

/-! ### Lemmas -/

theorem alGet_alSet_self {β : Type} (l : List (Nat × β)) (s : Nat) (v : β) :
    alGet (alSet l s v) s = some v := by
  induction l with
  | nil => simp [alSet, alGet]
  | cons p t ih =>
    obtain ⟨k, w⟩ := p
    by_cases h : k = s
    · subst h; simp [alSet, alGet]
    · simp [alSet, alGet, h, Ne.symm h, ih]

theorem alGet_alSet_ne {β : Type} (l : List (Nat × β)) (s s' : Nat) (v : β)
    (h : s' ≠ s) : alGet (alSet l s v) s' = alGet l s' := by
  induction l with
  | nil => simp [alSet, alGet, h]
  | cons p t ih =>
    obtain ⟨k, w⟩ := p
    by_cases hk : k = s
    · subst hk
      simp only [alSet, if_pos rfl, alGet]
      by_cases hs : s' = k
      · exact absurd hs h
      · simp [hs]
    · simp only [alSet, if_neg hk, alGet]
      by_cases hs : s' = k
      · simp [hs]
      · simp [hs, ih]

theorem alGet_alErase_self {β : Type} (l : List (Nat × β)) (s : Nat) :
    alGet (alErase l s) s = none := by
  induction l with
  | nil => rfl
  | cons p t ih =>
    obtain ⟨k, w⟩ := p
    by_cases h : k = s
    · subst h; simpa [alErase, List.filter] using ih
    · have hne : (k != s) = true := by simpa using h
      simp [alErase, List.filter, hne, alGet, Ne.symm h] at ih ⊢
      exact ih

theorem alGet_alErase_ne {β : Type} (l : List (Nat × β)) (s s' : Nat)
    (h : s' ≠ s) : alGet (alErase l s) s' = alGet l s' := by
  induction l with
  | nil => rfl
  | cons p t ih =>
    obtain ⟨k, w⟩ := p
    by_cases hk : k = s
    · subst hk
      have : (k != k) = false := by simp
      simp [alErase, List.filter, alGet, h] at ih ⊢
      exact ih
    · have hne : (k != s) = true := by simpa using hk
      by_cases hs : s' = k
      · subst hs; simp [alErase, List.filter, hne, alGet]
      · simp [alErase, List.filter, hne, alGet, hs] at ih ⊢
        exact ih

theorem firstSome_none_right {α : Type} (a : Option α) : firstSome a none = a := by
  cases a <;> rfl

theorem alGet_eq_none_of_not_mem {β : Type} (l : List (Nat × β)) (s : Nat)
    (h : s ∉ l.map Prod.fst) : alGet l s = none := by
  induction l with
  | nil => rfl
  | cons p t ih =>
    obtain ⟨k, v⟩ := p
    simp only [List.map_cons, List.mem_cons] at h
    push_neg at h
    simp [alGet, h.1, ih h.2]

/-- Merging a response's store map into the accumulator: an entry of the new
map wins over the accumulator, entries absent from the new map survive. -/
theorem alGet_mergeStores (new : List (Nat × Nat)) (hnd : (new.map Prod.fst).Nodup) :
    ∀ (acc : List (Nat × Nat)) (s : Nat),
      alGet (mergeStores acc new) s = firstSome (alGet new s) (alGet acc s) := by
  induction new with
  | nil => intro acc s; simp [mergeStores, alGet, firstSome]
  | cons p t ih =>
    intro acc s
    obtain ⟨k, v⟩ := p
    simp only [List.map_cons, List.nodup_cons] at hnd
    have step : mergeStores acc ((k, v) :: t) = mergeStores (alSet acc k v) t := rfl
    rw [step, ih hnd.2]
    by_cases hs : s = k
    · subst hs
      rw [alGet_eq_none_of_not_mem t s hnd.1]
      simp [alGet, firstSome, alGet_alSet_self]
    · simp [alGet, hs, alGet_alSet_ne acc k s v hs]

/-! ### C1: request order of `ClusterFreeze` -/

/-- C1.  When freezing, `ClusterFreeze` issues exactly three `ChangeFrozen`
requests, in order: userspace from `Meta2KeyMax` (up to `KeyMax`), the meta2
ranges from `Meta1KeyMax`, and the meta1/bootstrap range from `LocalMax`
last, each request's `to` key being the `MinStartKey` returned by the
previous step.  When unfreezing, it issues exactly one request spanning
`LocalMax` to `KeyMax`. -/
theorem ClusterFreeze_request_order
    (env : FKey → FKey → Bool → Except AdminError ChangeFrozenResponse)
    (r1 r2 r3 : ChangeFrozenResponse) :
    (env FKey.meta2KeyMax FKey.keyMax true = Except.ok r1 →
      env FKey.meta1KeyMax r1.minStartKey true = Except.ok r2 →
      env FKey.localMax r2.minStartKey true = Except.ok r3 →
      (ClusterFreeze env true).2 =
        [(FKey.meta2KeyMax, FKey.keyMax, true),
         (FKey.meta1KeyMax, r1.minStartKey, true),
         (FKey.localMax, r2.minStartKey, true)]) ∧
    (ClusterFreeze env false).2 = [(FKey.localMax, FKey.keyMax, false)] := by
  constructor
  · intro h1 h2 h3
    simp [ClusterFreeze, freezeFroms, runFreezeSteps, h1, h2, h3]
  · cases h : env FKey.localMax FKey.keyMax false <;> simp [ClusterFreeze, h]

/-- Witness for C1 at the concrete oracle `envCF`. -/
theorem ClusterFreeze_request_order_witness :
    (ClusterFreeze envCF true).2 =
      [(FKey.meta2KeyMax, FKey.keyMax, true),
       (FKey.meta1KeyMax, FKey.meta2KeyMax, true),
       (FKey.localMax, FKey.meta1KeyMax, true)] ∧
    (ClusterFreeze envCF false).2 = [(FKey.localMax, FKey.keyMax, false)] :=
  ⟨(ClusterFreeze_request_order envCF
      { rangesAffected := 1, minStartKey := FKey.meta2KeyMax, stores := [] }
      { rangesAffected := 1, minStartKey := FKey.meta1KeyMax, stores := [] }
      { rangesAffected := 1, minStartKey := FKey.localMax, stores := [] }).1
      rfl rfl rfl,
   (ClusterFreeze_request_order envCF
      { rangesAffected := 1, minStartKey := FKey.meta2KeyMax, stores := [] }
      { rangesAffected := 1, minStartKey := FKey.meta1KeyMax, stores := [] }
      { rangesAffected := 1, minStartKey := FKey.localMax, stores := [] }).2⟩

/-! ### C9: accumulation and abort-on-failure of `ClusterFreeze` -/

/-- C9.  Over the freeze steps: on success the response's `RangesAffected` is
the sum of the three steps' counts and the accumulated store set is the
per-store-id union with later steps overwriting; the merged map resolves each
store id to the last step that mentioned it.  The first failing step makes
`ClusterFreeze` return that error immediately: the trace shows the failed
request was the last one issued, with no retry and nothing after it. -/
theorem ClusterFreeze_accumulation
    (env : FKey → FKey → Bool → Except AdminError ChangeFrozenResponse)
    (r1 r2 r3 : ChangeFrozenResponse) (e : AdminError) :
    (env FKey.meta2KeyMax FKey.keyMax true = Except.ok r1 →
      (env FKey.meta1KeyMax r1.minStartKey true = Except.ok r2 →
        (env FKey.localMax r2.minStartKey true = Except.ok r3 →
          (ClusterFreeze env true).1 =
            Except.ok (r1.rangesAffected + r2.rangesAffected + r3.rangesAffected,
              mergeStores (mergeStores (mergeStores [] r1.stores) r2.stores) r3.stores)) ∧
        (env FKey.localMax r2.minStartKey true = Except.error e →
          ClusterFreeze env true =
            (Except.error e,
             [(FKey.meta2KeyMax, FKey.keyMax, true),
              (FKey.meta1KeyMax, r1.minStartKey, true),
              (FKey.localMax, r2.minStartKey, true)]))) ∧
      (env FKey.meta1KeyMax r1.minStartKey true = Except.error e →
        ClusterFreeze env true =
          (Except.error e,
           [(FKey.meta2KeyMax, FKey.keyMax, true),
            (FKey.meta1KeyMax, r1.minStartKey, true)]))) ∧
    (env FKey.meta2KeyMax FKey.keyMax true = Except.error e →
      ClusterFreeze env true = (Except.error e, [(FKey.meta2KeyMax, FKey.keyMax, true)])) ∧
    ((r1.stores.map Prod.fst).Nodup → (r2.stores.map Prod.fst).Nodup →
      (r3.stores.map Prod.fst).Nodup → ∀ s,
      alGet (mergeStores (mergeStores (mergeStores [] r1.stores) r2.stores) r3.stores) s =
        firstSome (alGet r3.stores s)
          (firstSome (alGet r2.stores s) (alGet r1.stores s))) := by
  refine ⟨fun h1 => ⟨fun h2 => ⟨fun h3 => ?_, fun h3 => ?_⟩, fun h2 => ?_⟩,
          fun h1 => ?_, fun hn1 hn2 hn3 s => ?_⟩
  · simp [ClusterFreeze, freezeFroms, runFreezeSteps, h1, h2, h3, add_assoc]
  · simp [ClusterFreeze, freezeFroms, runFreezeSteps, h1, h2, h3]
  · simp [ClusterFreeze, freezeFroms, runFreezeSteps, h1, h2]
  · simp [ClusterFreeze, freezeFroms, runFreezeSteps, h1]
  · rw [alGet_mergeStores r3.stores hn3, alGet_mergeStores r2.stores hn2,
      alGet_mergeStores r1.stores hn1]
    simp [alGet, firstSome_none_right]

/-- Witness for C9: a successful three-step freeze with overlapping store
sets (store 2 reported by two steps, the later node winning), and a freeze
whose second step fails. -/
theorem ClusterFreeze_accumulation_witness :
    (ClusterFreeze envC9 true).1 = Except.ok ((10 : Int), [(1, 100), (2, 200), (3, 300)]) ∧
    ClusterFreeze envC9bad true =
      (Except.error (AdminError.dbErr 7),
       [(FKey.meta2KeyMax, FKey.keyMax, true),
        (FKey.meta1KeyMax, FKey.meta2KeyMax, true)]) ∧
    alGet (mergeStores (mergeStores (mergeStores [] [(1, 100), (2, 100)]) [(2, 200)]) [(3, 300)]) 2
      = some 200 := by
  refine ⟨?_, ?_, ?_⟩
  · exact ((((ClusterFreeze_accumulation envC9
      { rangesAffected := 2, minStartKey := FKey.meta2KeyMax, stores := [(1, 100), (2, 100)] }
      { rangesAffected := 3, minStartKey := FKey.meta1KeyMax, stores := [(2, 200)] }
      { rangesAffected := 5, minStartKey := FKey.localMax, stores := [(3, 300)] }
      (AdminError.dbErr 7)).1 rfl).1 rfl).1 rfl).trans (by rfl)
  · exact ((ClusterFreeze_accumulation envC9bad
      { rangesAffected := 2, minStartKey := FKey.meta2KeyMax, stores := [] }
      { rangesAffected := 0, minStartKey := FKey.keyMax, stores := [] }
      { rangesAffected := 0, minStartKey := FKey.keyMax, stores := [] }
      (AdminError.dbErr 7)).1 rfl).2 rfl
  · exact ((ClusterFreeze_accumulation envC9
      { rangesAffected := 2, minStartKey := FKey.meta2KeyMax, stores := [(1, 100), (2, 100)] }
      { rangesAffected := 3, minStartKey := FKey.meta1KeyMax, stores := [(2, 200)] }
      { rangesAffected := 5, minStartKey := FKey.localMax, stores := [(3, 300)] }
      (AdminError.dbErr 7)).2.2 (by decide) (by decide) (by decide) 2).trans (by decide)

/-! ### C2: the convergence decision -/

/-- C2.  When a poll response arrives, the store is marked
confirmed-converged (`oks[storeID] = true`) exactly when the response reports
zero not-yet-frozen replicas for a freeze target, respectively zero
still-frozen replicas for an unfreeze target; in every other case the
store's entry is removed, so a later iteration retries it. -/
theorem applyPollResult_convergence (wantFrozen : Bool) (oks : List (Nat × Bool))
    (storeID : Nat) (resp : PollFrozenResponse) :
    (alGet (applyPollResult wantFrozen oks storeID resp) storeID = some true ↔
      ((wantFrozen = true ∧ resp.numThawed = 0) ∨
       (wantFrozen = false ∧ resp.numFrozen = 0))) ∧
    (¬((wantFrozen = true ∧ resp.numThawed = 0) ∨
       (wantFrozen = false ∧ resp.numFrozen = 0)) →
      alGet (applyPollResult wantFrozen oks storeID resp) storeID = none) := by
  have hconv : converged wantFrozen resp = true ↔
      ((wantFrozen = true ∧ resp.numThawed = 0) ∨
       (wantFrozen = false ∧ resp.numFrozen = 0)) := by
    cases wantFrozen <;> simp [converged]
  constructor
  · constructor
    · intro h
      by_cases hc : converged wantFrozen resp = true
      · exact hconv.mp hc
      · exfalso
        rw [applyPollResult, if_neg hc, alGet_alErase_self] at h
        exact Option.noConfusion h
    · intro h
      rw [applyPollResult, if_pos (hconv.mpr h)]
      exact alGet_alSet_self oks storeID true
  · intro h
    have hc : ¬converged wantFrozen resp = true := fun hc => h (hconv.mp hc)
    rw [applyPollResult, if_neg hc]
    exact alGet_alErase_self oks storeID

/-- Witness for C2: a freeze-target response with a thawed replica left is
not marked converged but cleared for retry. -/
theorem applyPollResult_convergence_witness :
    alGet (applyPollResult true [(1, false)] 1 { numThawed := 2, numFrozen := 0 }) 1
      = none ∧
    alGet (applyPollResult true [(1, false)] 1 { numThawed := 0, numFrozen := 3 }) 1
      = some true :=
  ⟨(applyPollResult_convergence true [(1, false)] 1
      { numThawed := 2, numFrozen := 0 }).2 (by decide),
   (applyPollResult_convergence true [(1, false)] 1
      { numThawed := 0, numFrozen := 3 }).1.mpr (by decide)⟩

/-! ### C10: the empty store map -/

/-- C10.  With an empty `stores` map, `waitForStoreFrozen` succeeds for
either desired state and any retry budget, without dispatching a single poll
action, resolving any address, or recording any error: the final state is
the initial one. -/
theorem waitForStoreFrozen_empty_stores (env : FreezeEnv) (wantFrozen : Bool)
    (fuel : Nat) :
    waitForStoreFrozen env [] wantFrozen fuel = (none, initWaitState) := by
  cases fuel <;> rfl

/-! ### C3: the poll discipline of the `oks` map -/

/-- Invariant of the poll bookkeeping: the outstanding actions are pairwise
distinct stores, and every outstanding store is marked in flight (`false`). -/
theorem poller_inv (st : PollerState) (h : PReach st) :
    st.pending.Nodup ∧ ∀ s ∈ st.pending, alGet st.oks s = some false := by
  induction h with
  | init => exact ⟨List.nodup_nil, by simp⟩
  | @step st a st' _ hstep ih =>
    obtain ⟨hnd, hmem⟩ := ih
    cases hstep with
    | dispatch s h0 =>
      have hs : s ∉ st.pending := fun hin => by
        rw [hmem s hin] at h0; exact Option.noConfusion h0
      refine ⟨List.nodup_cons.mpr ⟨hs, hnd⟩, fun s' hin => ?_⟩
      rcases List.mem_cons.mp hin with heq | hin'
      · subst heq; exact alGet_alSet_self st.oks s' false
      · have hne : s' ≠ s := fun heq => by
          subst heq
          rw [hmem s' hin'] at h0; exact Option.noConfusion h0
        rw [alGet_alSet_ne st.oks s s' false hne]
        exact hmem s' hin'
    | finishOk s conv h0 =>
      refine ⟨hnd.erase s, fun s' hin => ?_⟩
      have hin' : s' ∈ st.pending := List.mem_of_mem_erase hin
      have hne : s' ≠ s := fun heq => by
        subst heq; exact hnd.not_mem_erase hin
      cases conv with
      | true =>
        simpa [alGet_alSet_ne st.oks s s' true hne] using hmem s' hin'
      | false =>
        simpa [alGet_alErase_ne st.oks s s' hne] using hmem s' hin'
    | finishErr s h0 =>
      exact ⟨hnd.erase s, fun s' hin => hmem s' (List.mem_of_mem_erase hin)⟩

/-- A confirmed mark survives any single step, given the in-flight invariant. -/
theorem pstep_preserves_confirmed (st : PollerState) (a : PAct) (st' : PollerState)
    (hstep : PStep st a st')
    (hinv : ∀ s ∈ st.pending, alGet st.oks s = some false)
    (s : Nat) (h : alGet st.oks s = some true) : alGet st'.oks s = some true := by
  cases hstep with
  | dispatch s0 h0 =>
    have hne : s ≠ s0 := fun heq => by subst heq; rw [h] at h0; exact Option.noConfusion h0
    simpa [alGet_alSet_ne st.oks s0 s false hne] using h
  | finishOk s0 conv h0 =>
    have hne : s ≠ s0 := fun heq => by
      subst heq; rw [hinv s h0] at h; exact Bool.noConfusion (Option.some.inj h)
    cases conv with
    | true => simpa [alGet_alSet_ne st.oks s0 s true hne] using h
    | false => simpa [alGet_alErase_ne st.oks s0 s hne] using h
  | finishErr s0 h0 => exact h

/-- C3.  In every reachable state of the poll bookkeeping there is at most
one outstanding poll action per store (`pending` has no duplicates), and a
store marked confirmed-converged keeps that mark across every further step
and can never again be the subject of a `dispatch` (poll-issuing) step. -/
theorem waitForStoreFrozen_poll_discipline (st : PollerState) (h : PReach st) :
    st.pending.Nodup ∧
    ∀ s, alGet st.oks s = some true →
      (∀ a st', PStep st a st' → alGet st'.oks s = some true) ∧
      ∀ st', ¬ PStep st (PAct.dispatch s) st' := by
  obtain ⟨hnd, hmem⟩ := poller_inv st h
  refine ⟨hnd, fun s hs => ⟨fun a st' hstep => pstep_preserves_confirmed st a st' hstep hmem s hs, ?_⟩⟩
  intro st' hstep
  cases hstep with
  | dispatch s0 h0 => rw [hs] at h0; exact Option.noConfusion h0

/-- Witness for C3, at the state reached by dispatching store 1 and
completing its poll as converged. -/
theorem waitForStoreFrozen_poll_discipline_witness :
    (PollerState.mk [(1, true)] []).pending.Nodup ∧
    ∀ s, alGet (PollerState.mk [(1, true)] []).oks s = some true →
      (∀ a st', PStep ⟨[(1, true)], []⟩ a st' → alGet st'.oks s = some true) ∧
      ∀ st', ¬ PStep ⟨[(1, true)], []⟩ (PAct.dispatch s) st' :=
  waitForStoreFrozen_poll_discipline ⟨[(1, true)], []⟩
    (PReach.step
      (PReach.step PReach.init (PStep.dispatch ⟨[], []⟩ 1 rfl))
      (PStep.finishOk ⟨[(1, false)], [1]⟩ 1 true (by simp)))

/-! ### Trace bookkeeping lemmas -/

theorem firstSome_some {α : Type} (x : α) (b : Option α) :
    firstSome (some x) b = some x := rfl

theorem firstSome_none_left {α : Type} (b : Option α) : firstSome none b = b := rfl

theorem sentList_append (a b : List WEvent) :
    sentList (a ++ b) = sentList a ++ sentList b := by
  simp [sentList, List.filterMap_append]

theorem resolvedStores_append (a b : List WEvent) :
    resolvedStores (a ++ b) = resolvedStores a ++ resolvedStores b := by
  simp [resolvedStores, List.filterMap_append]

theorem sentList_nil : sentList [] = [] := rfl

theorem sentList_resolved (s n : Nat) (p : Option Bool) (tr : List WEvent) :
    sentList (WEvent.resolved s n p :: tr) = sentList tr := by simp [sentList]

theorem sentList_polled (s k : Nat) (tr : List WEvent) :
    sentList (WEvent.polled s k :: tr) = sentList tr := by simp [sentList]

theorem sentList_sent (e : AdminError) (tr : List WEvent) :
    sentList (WEvent.sent e :: tr) = e :: sentList tr := by simp [sentList]

theorem resolvedStores_nil : resolvedStores [] = [] := rfl

theorem resolvedStores_resolved (s n : Nat) (p : Option Bool) (tr : List WEvent) :
    resolvedStores (WEvent.resolved s n p :: tr) = s :: resolvedStores tr := by
  simp [resolvedStores]

theorem resolvedStores_polled (s k : Nat) (tr : List WEvent) :
    resolvedStores (WEvent.polled s k :: tr) = resolvedStores tr := by
  simp [resolvedStores]

theorem resolvedStores_sent (e : AdminError) (tr : List WEvent) :
    resolvedStores (WEvent.sent e :: tr) = resolvedStores tr := by
  simp [resolvedStores]

theorem sendErr_oks (st : WaitState) (e : AdminError) : (sendErr st e).oks = st.oks := rfl

theorem sendErr_trace (st : WaitState) (e : AdminError) :
    (sendErr st e).trace = st.trace ++ [WEvent.sent e] := rfl

theorem sendErr_errSlot (st : WaitState) (e : AdminError) :
    (sendErr st e).errSlot = firstSome st.errSlot (some e) := by
  cases h : st.errSlot <;> simp [sendErr, firstSome, h]

/-- Error accounting of one inner pass: the pass appends some list `δ` of
sent errors to the trace, and the error slot afterwards holds its previous
content if there was one, else the first newly sent error. -/
theorem iter_sends (env : FreezeEnv) (wf : Bool) :
    ∀ (stores : List (Nat × Nat)) (st : WaitState),
      ∃ δ, sentList (iterStores env wf stores st).trace = sentList st.trace ++ δ ∧
        (iterStores env wf stores st).errSlot = firstSome st.errSlot δ.head? := by
  intro stores
  induction stores with
  | nil =>
    intro st
    exact ⟨[], by simp [iterStores], by simp [iterStores, firstSome_none_right]⟩
  | cons p rest ih =>
    intro st
    obtain ⟨storeID, nodeID⟩ := p
    cases hg : env.gossip nodeID with
    | error e =>
      refine ⟨[e], ?_, ?_⟩
      · simp [iterStores, hg, sendErr_trace, sentList_append, sentList_resolved,
          sentList_sent, sentList_nil]
      · simp [iterStores, hg, sendErr_errSlot]
    | ok addr =>
      cases ho : alGet st.oks storeID with
      | some b =>
        obtain ⟨δ, h1, h2⟩ := ih
          { st with trace := st.trace ++ [WEvent.resolved storeID nodeID (alGet st.oks storeID)] }
        refine ⟨δ, ?_, ?_⟩
        · simpa [iterStores, hg, ho, sentList_append, sentList_resolved] using h1
        · simpa [iterStores, hg, ho] using h2
      | none =>
        cases hs : env.submit st.submits with
        | refusedSaturated =>
          refine ⟨[AdminError.nodeShuttingDown], ?_, ?_⟩
          · simp [iterStores, hg, ho, hs, sendErr_trace, sentList_append,
              sentList_resolved, sentList_sent, sentList_nil]
          · simp [iterStores, hg, ho, hs, sendErr_errSlot]
        | refusedShutdown =>
          refine ⟨[AdminError.nodeShuttingDown], ?_, ?_⟩
          · simp [iterStores, hg, ho, hs, sendErr_trace, sentList_append,
              sentList_resolved, sentList_sent, sentList_nil]
          · simp [iterStores, hg, ho, hs, sendErr_errSlot]
        | accepted =>
          cases hr : runAction env wf storeID addr ((alGet st.attempts storeID).getD 0)
              (alSet st.oks storeID false) with
          | mk oks' errOpt =>
            cases errOpt with
            | none =>
              obtain ⟨δ, h1, h2⟩ := ih
                { st with
                  oks := oks',
                  attempts := alSet st.attempts storeID ((alGet st.attempts storeID).getD 0 + 1),
                  submits := st.submits + 1,
                  trace := st.trace ++ [WEvent.resolved storeID nodeID (alGet st.oks storeID)]
                    ++ [WEvent.polled storeID ((alGet st.attempts storeID).getD 0)] }
              refine ⟨δ, ?_, ?_⟩
              · simpa [iterStores, hg, ho, hs, hr, sentList_append, sentList_resolved,
                  sentList_polled, sentList_nil] using h1
              · simpa [iterStores, hg, ho, hs, hr] using h2
            | some e =>
              obtain ⟨δ, h1, h2⟩ := ih
                (sendErr { st with
                  oks := oks',
                  attempts := alSet st.attempts storeID ((alGet st.attempts storeID).getD 0 + 1),
                  submits := st.submits + 1,
                  trace := st.trace ++ [WEvent.resolved storeID nodeID (alGet st.oks storeID)]
                    ++ [WEvent.polled storeID ((alGet st.attempts storeID).getD 0)] } e)
              refine ⟨e :: δ, ?_, ?_⟩
              · rw [show (iterStores env wf ((storeID, nodeID) :: rest) st) =
                  (iterStores env wf rest (sendErr { st with
                    oks := oks',
                    attempts := alSet st.attempts storeID ((alGet st.attempts storeID).getD 0 + 1),
                    submits := st.submits + 1,
                    trace := st.trace ++ [WEvent.resolved storeID nodeID (alGet st.oks storeID)]
                      ++ [WEvent.polled storeID ((alGet st.attempts storeID).getD 0)] } e))
                  from by simp [iterStores, hg, ho, hs, hr]]
                rw [h1, sendErr_trace]
                simp [sentList_append, sentList_resolved, sentList_polled, sentList_sent,
                  sentList_nil]
              · rw [show (iterStores env wf ((storeID, nodeID) :: rest) st) =
                  (iterStores env wf rest (sendErr { st with
                    oks := oks',
                    attempts := alSet st.attempts storeID ((alGet st.attempts storeID).getD 0 + 1),
                    submits := st.submits + 1,
                    trace := st.trace ++ [WEvent.resolved storeID nodeID (alGet st.oks storeID)]
                      ++ [WEvent.polled storeID ((alGet st.attempts storeID).getD 0)] } e))
                  from by simp [iterStores, hg, ho, hs, hr]]
                rw [h2, sendErr_errSlot]
                cases hsl : st.errSlot <;> simp [firstSome]

/-- When every address resolves and every submission is accepted, one inner
pass resolves the address of every store in the map — whether or not the
store is already confirmed or in flight. -/
theorem iter_resolves_all (env : FreezeEnv) (wf : Bool) :
    ∀ (stores : List (Nat × Nat)) (st : WaitState),
      (∀ p ∈ stores, ∃ a, env.gossip p.2 = Except.ok a) →
      (∀ k, env.submit k = SubmitOutcome.accepted) →
      resolvedStores (iterStores env wf stores st).trace =
        resolvedStores st.trace ++ stores.map Prod.fst := by
  intro stores
  induction stores with
  | nil => intro st _ _; simp [iterStores]
  | cons p rest ih =>
    intro st hg hsub
    obtain ⟨storeID, nodeID⟩ := p
    obtain ⟨addr, ha⟩ := hg (storeID, nodeID) (List.mem_cons_self _ _)
    have hrest : ∀ p ∈ rest, ∃ a, env.gossip p.2 = Except.ok a :=
      fun q hq => hg q (List.mem_cons_of_mem _ hq)
    cases ho : alGet st.oks storeID with
    | some b =>
      rw [show iterStores env wf ((storeID, nodeID) :: rest) st =
        iterStores env wf rest
          { st with trace := st.trace ++ [WEvent.resolved storeID nodeID (alGet st.oks storeID)] }
        from by simp [iterStores, ha, ho]]
      rw [ih _ hrest hsub]
      simp [resolvedStores_append, resolvedStores_resolved, resolvedStores_nil]
    | none =>
      have hs := hsub st.submits
      cases hr : runAction env wf storeID addr ((alGet st.attempts storeID).getD 0)
          (alSet st.oks storeID false) with
      | mk oks' errOpt =>
        cases errOpt with
        | none =>
          rw [show iterStores env wf ((storeID, nodeID) :: rest) st =
            iterStores env wf rest
              { st with
                oks := oks',
                attempts := alSet st.attempts storeID ((alGet st.attempts storeID).getD 0 + 1),
                submits := st.submits + 1,
                trace := st.trace ++ [WEvent.resolved storeID nodeID (alGet st.oks storeID)]
                  ++ [WEvent.polled storeID ((alGet st.attempts storeID).getD 0)] }
            from by simp [iterStores, ha, ho, hs, hr]]
          rw [ih _ hrest hsub]
          simp [resolvedStores_append, resolvedStores_resolved, resolvedStores_polled,
            resolvedStores_nil]
        | some e =>
          rw [show iterStores env wf ((storeID, nodeID) :: rest) st =
            iterStores env wf rest
              (sendErr { st with
                oks := oks',
                attempts := alSet st.attempts storeID ((alGet st.attempts storeID).getD 0 + 1),
                submits := st.submits + 1,
                trace := st.trace ++ [WEvent.resolved storeID nodeID (alGet st.oks storeID)]
                  ++ [WEvent.polled storeID ((alGet st.attempts storeID).getD 0)] } e)
            from by simp [iterStores, ha, ho, hs, hr]]
          rw [ih _ hrest hsub, sendErr_trace]
          simp [resolvedStores_append, resolvedStores_resolved, resolvedStores_polled,
            resolvedStores_sent, resolvedStores_nil]

/-- One unfolding of the retry loop. -/
theorem waitLoop_succ (env : FreezeEnv) (wf : Bool) (stores : List (Nat × Nat))
    (fuel : Nat) (st : WaitState) (nw : Nat) :
    waitLoop env wf stores (fuel + 1) st nw =
      match (iterStores env wf stores st).errSlot with
      | some e => (some e, { iterStores env wf stores st with errSlot := none })
      | none =>
        match stores.length - countTrue (iterStores env wf stores st).oks with
        | 0 => (none, iterStores env wf stores st)
        | Nat.succ m =>
            waitLoop env wf stores fuel (iterStores env wf stores st) (Nat.succ m) := rfl

/-- Loop-level error accounting: starting from an empty error slot and a
trace without sent errors, a `none` result means no error was ever sent, and
a `some e` result means `e` is either the first error ever sent, or the
timeout error produced with no error ever sent. -/
theorem waitLoop_first_error (env : FreezeEnv) (wf : Bool) (stores : List (Nat × Nat)) :
    ∀ (fuel : Nat) (st : WaitState) (nw : Nat),
      st.errSlot = none → sentList st.trace = [] →
      ((waitLoop env wf stores fuel st nw).1 = none →
        sentList (waitLoop env wf stores fuel st nw).2.trace = []) ∧
      (∀ e, (waitLoop env wf stores fuel st nw).1 = some e →
        (sentList (waitLoop env wf stores fuel st nw).2.trace).head? = some e ∨
        (sentList (waitLoop env wf stores fuel st nw).2.trace = [] ∧
          ∃ m, e = AdminError.timedOut m)) := by
  intro fuel
  induction fuel with
  | zero =>
    intro st nw hslot htr
    constructor
    · intro _; simpa [waitLoop] using htr
    · intro e he
      right
      refine ⟨by simpa [waitLoop] using htr, ?_⟩
      simp only [waitLoop] at he
      cases nw with
      | zero => simp [finish] at he
      | succ m =>
        simp [finish] at he
        exact ⟨m + 1, he.symm⟩
  | succ fuel ih =>
    intro st nw hslot htr
    obtain ⟨δ, hδtr, hδslot⟩ := iter_sends env wf stores st
    rw [hslot, firstSome_none_left] at hδslot
    cases hδ : δ with
    | nil =>
      have hslot' : (iterStores env wf stores st).errSlot = none := by
        rw [hδslot, hδ]; rfl
      have htr' : sentList (iterStores env wf stores st).trace = [] := by
        rw [hδtr, htr, hδ]; rfl
      rw [waitLoop_succ, hslot']
      cases hnw : stores.length - countTrue (iterStores env wf stores st).oks with
      | zero =>
        constructor
        · intro _; exact htr'
        · intro e he; exact absurd he (by simp)
      | succ m => exact ih (iterStores env wf stores st) (Nat.succ m) hslot' htr'
    | cons e0 δt =>
      have hslot' : (iterStores env wf stores st).errSlot = some e0 := by
        rw [hδslot, hδ]; rfl
      rw [waitLoop_succ, hslot']
      constructor
      · intro h; exact absurd h (by simp)
      · intro e he
        simp only [Option.some.injEq] at he
        subst he
        left
        show (sentList (WaitState.mk (iterStores env wf stores st).oks none
          (iterStores env wf stores st).attempts (iterStores env wf stores st).submits
          (iterStores env wf stores st).trace).trace).head? = some e0
        simp only [hδtr, htr, hδ]
        rfl

/-- Loop-level timeout accounting: starting clean, if the run sent no error
at all then the result is `none` when every store converged and the timeout
error carrying the exact number of unconverged stores otherwise. -/
theorem waitLoop_no_error_timeout (env : FreezeEnv) (wf : Bool) (stores : List (Nat × Nat)) :
    ∀ (fuel : Nat) (st : WaitState) (nw : Nat),
      st.errSlot = none → sentList st.trace = [] →
      nw = stores.length - countTrue st.oks →
      sentList (waitLoop env wf stores fuel st nw).2.trace = [] →
      (waitLoop env wf stores fuel st nw).1 =
        match stores.length - countTrue (waitLoop env wf stores fuel st nw).2.oks with
        | 0 => none
        | Nat.succ m => some (AdminError.timedOut (Nat.succ m)) := by
  intro fuel
  induction fuel with
  | zero =>
    intro st nw hslot htr hnw _
    simp only [waitLoop, finish]
    rw [hnw]
  | succ fuel ih =>
    intro st nw hslot htr hnw
    obtain ⟨δ, hδtr, hδslot⟩ := iter_sends env wf stores st
    rw [hslot, firstSome_none_left] at hδslot
    cases hδ : δ with
    | nil =>
      have hslot' : (iterStores env wf stores st).errSlot = none := by
        rw [hδslot, hδ]; rfl
      have htr' : sentList (iterStores env wf stores st).trace = [] := by
        rw [hδtr, htr, hδ]; rfl
      rw [waitLoop_succ, hslot']
      cases hnw' : stores.length - countTrue (iterStores env wf stores st).oks with
      | zero => intro _; rw [hnw']
      | succ m =>
        intro hfin
        exact ih (iterStores env wf stores st) (Nat.succ m) hslot' htr' hnw'.symm hfin
    | cons e0 δt =>
      have hslot' : (iterStores env wf stores st).errSlot = some e0 := by
        rw [hδslot, hδ]; rfl
      rw [waitLoop_succ, hslot']
      intro hfin
      exfalso
      revert hfin
      show sentList (WaitState.mk (iterStores env wf stores st).oks none
        (iterStores env wf stores st).attempts (iterStores env wf stores st).submits
        (iterStores env wf stores st).trace).trace = [] → False
      simp only [hδtr, htr, hδ]
      intro hfin
      simp at hfin

/-! ### C6: first error wins -/

/-- C6.  In any run of `waitForStoreFrozen`: if it succeeds, no error was
ever handed to `sendErr`; if it fails with `e`, then either `e` is the very
first error ever handed to `sendErr` (later ones having been dropped, not
queued), or no error was ever sent and `e` is the retry-budget timeout
error.  In particular the error surfaced to the caller is always the first
recorded one. -/
theorem waitForStoreFrozen_first_error_wins (env : FreezeEnv)
    (stores : List (Nat × Nat)) (wantFrozen : Bool) (fuel : Nat) :
    ((waitForStoreFrozen env stores wantFrozen fuel).1 = none →
      sentList (waitForStoreFrozen env stores wantFrozen fuel).2.trace = []) ∧
    (∀ e, (waitForStoreFrozen env stores wantFrozen fuel).1 = some e →
      (sentList (waitForStoreFrozen env stores wantFrozen fuel).2.trace).head? = some e ∨
      (sentList (waitForStoreFrozen env stores wantFrozen fuel).2.trace = [] ∧
        ∃ m, e = AdminError.timedOut m)) :=
  waitLoop_first_error env wantFrozen stores fuel initWaitState stores.length rfl rfl

/-- Witness for C6: both stores' polls fail in the same pass; both errors
are sent, the first one is returned, the second is dropped. -/
theorem waitForStoreFrozen_first_error_wins_witness :
    sentList (waitForStoreFrozen env6 [(1, 10), (2, 20)] true 5).2.trace =
      [AdminError.pollErr 1, AdminError.pollErr 2] ∧
    (waitForStoreFrozen env6 [(1, 10), (2, 20)] true 5).1 = some (AdminError.pollErr 1) ∧
    (sentList (waitForStoreFrozen env6 [(1, 10), (2, 20)] true 5).2.trace).head? =
      some (AdminError.pollErr 1) :=
  ⟨by decide, by decide,
    ((waitForStoreFrozen_first_error_wins env6 [(1, 10), (2, 20)] true 5).2
      (AdminError.pollErr 1) (by decide)).resolve_right
      (fun hc => absurd hc.1 (by decide))⟩

/-! ### C8: timeout on budget exhaustion -/

/-- C8.  If a run of `waitForStoreFrozen` records no error at all, its
result is determined by the final count of unconverged stores
(`len(stores)` minus the confirmed entries of `oks`, the code's
`numWaiting`): success when it is zero — and, when the retry budget ran out
with stores still waiting, the timeout error reporting exactly that count. -/
theorem waitForStoreFrozen_timeout (env : FreezeEnv) (stores : List (Nat × Nat))
    (wantFrozen : Bool) (fuel : Nat)
    (hnoerr : sentList (waitForStoreFrozen env stores wantFrozen fuel).2.trace = []) :
    (waitForStoreFrozen env stores wantFrozen fuel).1 =
      match stores.length - countTrue (waitForStoreFrozen env stores wantFrozen fuel).2.oks with
      | 0 => none
      | Nat.succ m => some (AdminError.timedOut (Nat.succ m)) :=
  waitLoop_no_error_timeout env wantFrozen stores fuel initWaitState stores.length
    rfl rfl rfl hnoerr

/-- Witness for C8 at the actual retry budget: one store that never reports
frozen; after `maxRetries` fruitless iterations the call fails with the
timeout error counting that one store. -/
theorem waitForStoreFrozen_timeout_witness :
    sentList (waitForStoreFrozen envT [(1, 10)] true maxRetries).2.trace = [] ∧
    (waitForStoreFrozen envT [(1, 10)] true maxRetries).1 =
      some (AdminError.timedOut 1) :=
  ⟨by decide,
   (waitForStoreFrozen_timeout envT [(1, 10)] true maxRetries (by decide)).trans
     (by decide)⟩

/-! ### C4: refused submissions -/

/-- Counterexample to C4 as stated: here the task runner refuses the first
submission because the concurrency ceiling is saturated — not because of
shutdown — yet the wait fails immediately with the "node is shutting down"
error and the store is never polled, instead of being retried in a later
iteration. -/
theorem refused_submission_saturated_fatal_cex :
    env4.submit 0 = SubmitOutcome.refusedSaturated ∧
    (waitForStoreFrozen env4 [(1, 10)] true 5).1 = some AdminError.nodeShuttingDown ∧
    WEvent.polled 1 0 ∉ (waitForStoreFrozen env4 [(1, 10)] true 5).2.trace := by
  decide

/-- C4 as amended: a refused submission is treated as fatal no matter why the
runner refused it — saturation and shutdown alike end the wait immediately
with the error "node is shutting down". -/
theorem refused_submission_always_fatal (env : FreezeEnv) (wantFrozen : Bool)
    (s n a fuel : Nat) (hg : env.gossip n = Except.ok a)
    (hsub : env.submit 0 = SubmitOutcome.refusedSaturated ∨
      env.submit 0 = SubmitOutcome.refusedShutdown) :
    (waitForStoreFrozen env [(s, n)] wantFrozen (fuel + 1)).1 =
      some AdminError.nodeShuttingDown := by
  rcases hsub with h | h <;>
    simp [waitForStoreFrozen, waitLoop, iterStores, initWaitState, hg, h, sendErr, alGet]

/-- Witness for C4's amended theorem at the saturated environment. -/
theorem refused_submission_always_fatal_witness :
    (waitForStoreFrozen env4 [(2, 30)] false 8).1 = some AdminError.nodeShuttingDown :=
  refused_submission_always_fatal env4 false 2 30 0 7 rfl (Or.inl rfl)

/-! ### C5: failed poll actions -/

/-- Counterexample to C5 as stated: the poll of store 1 fails; the error is
recorded and returned, but the store's in-flight mark is not cleared — its
`oks` entry is still `false` (in flight), not absent, when the wait ends. -/
theorem poll_failure_keeps_inflight_mark_cex :
    (waitForStoreFrozen env5 [(1, 10)] true 5).1 = some (AdminError.pollErr 7) ∧
    alGet (waitForStoreFrozen env5 [(1, 10)] true 5).2.oks 1 = some false := by
  decide

/-- C5 as amended: when the remote poll of a store fails, the error is handed
to `sendErr` (first error wins) but the store's `oks` entry is left exactly
as it was — the in-flight mark persists; the recorded error then ends the
wait, the store still marked in flight. -/
theorem poll_failure_records_error_keeps_mark (env : FreezeEnv) (wantFrozen : Bool)
    (s n a fuel : Nat) (e : AdminError) (oks : List (Nat × Bool))
    (hg : env.gossip n = Except.ok a) (hsub : env.submit 0 = SubmitOutcome.accepted)
    (hd : env.dial a = Except.ok ()) (hp : env.poll s 0 = Except.error e) :
    runAction env wantFrozen s a 0 oks = (oks, some e) ∧
    (waitForStoreFrozen env [(s, n)] wantFrozen (fuel + 1)).1 = some e ∧
    alGet (waitForStoreFrozen env [(s, n)] wantFrozen (fuel + 1)).2.oks s = some false := by
  refine ⟨by simp [runAction, hd, hp], ?_, ?_⟩ <;>
    simp [waitForStoreFrozen, waitLoop, iterStores, initWaitState, hg, hsub, hd, hp,
      runAction, sendErr, alGet]

/-- Witness for C5's amended theorem at the failing-poll environment. -/
theorem poll_failure_records_error_keeps_mark_witness :
    runAction env5 true 1 0 0 [(1, false)] = ([(1, false)], some (AdminError.pollErr 7)) ∧
    (waitForStoreFrozen env5 [(1, 10)] true 8).1 = some (AdminError.pollErr 7) ∧
    alGet (waitForStoreFrozen env5 [(1, 10)] true 8).2.oks 1 = some false :=
  poll_failure_records_error_keeps_mark env5 true 1 10 0 7 (AdminError.pollErr 7)
    [(1, false)] rfl rfl rfl rfl

/-! ### C7: address resolution per iteration -/

/-- Counterexample to C7 as stated: store 1 confirms as frozen in the first
iteration, yet the second iteration still resolves its node's address — the
trace contains a resolution event for store 1 taken while its `oks` entry
was already `some true` (confirmed-converged).  The run nonetheless
succeeds. -/
theorem resolution_for_converged_store_cex :
    WEvent.resolved 1 10 (some true) ∈
      (waitForStoreFrozen env7 [(1, 10), (2, 20)] true 20).2.trace ∧
    (waitForStoreFrozen env7 [(1, 10), (2, 20)] true 20).1 = none := by
  decide

/-- C7 as amended: on each iteration the address of every store in the map is
resolved, in map order, regardless of that store's convergence state; a
resolution failure still aborts the pass (no later store is resolved), puts
its error into the slot if the slot is free, and — here for a singleton map —
becomes the overall result of the wait. -/
theorem resolution_every_store_each_iteration (env : FreezeEnv) (wantFrozen : Bool)
    (stores : List (Nat × Nat)) (st : WaitState) (s n : Nat)
    (rest : List (Nat × Nat)) (e : AdminError) (fuel : Nat) :
    ((∀ p ∈ stores, ∃ a, env.gossip p.2 = Except.ok a) →
      (∀ k, env.submit k = SubmitOutcome.accepted) →
      resolvedStores (iterStores env wantFrozen stores st).trace =
        resolvedStores st.trace ++ stores.map Prod.fst) ∧
    (env.gossip n = Except.error e → st.errSlot = none →
      (iterStores env wantFrozen ((s, n) :: rest) st).errSlot = some e ∧
      resolvedStores (iterStores env wantFrozen ((s, n) :: rest) st).trace =
        resolvedStores st.trace ++ [s]) ∧
    (env.gossip n = Except.error e →
      (waitForStoreFrozen env [(s, n)] wantFrozen (fuel + 1)).1 = some e) := by
  refine ⟨iter_resolves_all env wantFrozen stores st, fun hge hslot => ⟨?_, ?_⟩, fun hge => ?_⟩
  · simp [iterStores, hge, sendErr_errSlot, hslot, firstSome]
  · simp [iterStores, hge, sendErr_trace, resolvedStores_append, resolvedStores_resolved,
      resolvedStores_sent, resolvedStores_nil]
  · simp [waitForStoreFrozen, waitLoop, iterStores, initWaitState, hge, sendErr]

/-- Witness for C7's amended theorem: all three parts at concrete inputs —
every store of a one-store map is resolved in a pass; a failing resolution
for node 20 aborts the pass with its error recorded; and that error is the
overall result of the wait. -/
theorem resolution_every_store_each_iteration_witness :
    (resolvedStores (iterStores envG true [(1, 10)] initWaitState).trace =
      resolvedStores initWaitState.trace ++ [1]) ∧
    ((iterStores envG true [(2, 20)] initWaitState).errSlot =
      some (AdminError.gossipErr 20) ∧
     resolvedStores (iterStores envG true [(2, 20)] initWaitState).trace =
      resolvedStores initWaitState.trace ++ [2]) ∧
    (waitForStoreFrozen envG [(2, 20)] true 5).1 = some (AdminError.gossipErr 20) :=
  ⟨(resolution_every_store_each_iteration envG true [(1, 10)] initWaitState 2 20 []
      (AdminError.gossipErr 20) 4).1
      (by rintro p hp; simp at hp; subst hp; exact ⟨0, rfl⟩) (fun _ => rfl),
   (resolution_every_store_each_iteration envG true [(1, 10)] initWaitState 2 20 []
      (AdminError.gossipErr 20) 4).2.1 rfl rfl,
   (resolution_every_store_each_iteration envG true [(1, 10)] initWaitState 2 20 []
      (AdminError.gossipErr 20) 4).2.2 rfl⟩

end Freeze
